import Mathlib

/-!
# Verification of go-toml-config (configuration loading over flag.FlagSet)

Shallow embedding of the repository `go-kornel/go-toml-config` (files
`config.go`, `set.go`) together with the parts of its collaborators that
its behaviour depends on: the Go standard `flag` package's `FlagSet.Set`
and per-type `Value.Set` methods, and the `strconv`/`time` parsing
routines those call (Go 1.4-era behaviour, which is what the repository's
own error-rewriting regexps expect: `strconv.ParseXxx: parsing "v":
invalid syntax`).

A Go `config.Set` wraps a `flag.FlagSet`: a registry mapping a flat name
to a flag holding a typed current value, a default, and a usage string.
Loading a TOML document flattens the nested tree into dotted paths and
calls `FlagSet.Set(path, fmt.Sprintf("%v", value))` on each leaf; the
first failure is rewritten by `buildLoadError` and returned.

Modelling notes:
* Go maps keyed by flag name are modelled as association lists with
  unique keys (lookup takes the first match).
* `fmt.Sprintf("%v", v)` for the scalar leaf types is `true`/`false` for
  booleans, base-10 for integers, and the raw string for strings.  TOML
  floating-point leaves and date/array leaves are outside this model
  (their handling is the same one-line delegation; their string render
  and re-parse are IEEE-754-dependent).
* `strconv.Quote` inside error messages is modelled as plain quoting
  (none of the strings involved need escape sequences).
* `flag.Value.Set` writes the parsed value through the bound pointer
  even when it also returns an error (zero value on a syntax error, the
  clamped value on a range error), exactly as Go 1.4 does; `FlagSet.Set`
  records nothing else on failure.
-/

/-- `flag.ErrorHandling`: policy selected at `Set` construction
(`ContinueOnError`, `ExitOnError`, `PanicOnError`). -/
inductive ErrorHandling where
  | ContinueOnError
  | ExitOnError
  | PanicOnError
deriving DecidableEq, Repr

/-- The typed current (or default) value stored by a flag.  The
constructor is the flag's declared type; `flag.Value.Set` never changes
it.  `durationV` is in nanoseconds (`time.Duration`).  `float64` flags
are outside the model (IEEE-754). -/
inductive GoValue where
  | boolV (b : Bool)
  | intV (i : Int)
  | int64V (i : Int)
  | uintV (n : Nat)
  | uint64V (n : Nat)
  | stringV (s : String)
  | durationV (ns : Int)
deriving DecidableEq, Repr

/-- One entry of `flag.FlagSet.formal`: current value, default value
(`DefValue`), and usage text. -/
structure GoFlag where
  value : GoValue
  defValue : GoValue
  usage : String
deriving DecidableEq, Repr

/-- `config.Set` (src/set.go): a wrapper around `flag.FlagSet`.  The
embedded FlagSet's fields are flattened in: name, error-handling policy,
and the `formal` registry of declared flags (a Go map keyed by name,
modelled as an association list with unique keys). -/
structure ConfigSet where
  name : String
  errorHandling : ErrorHandling
  formal : List (String × GoFlag)
deriving DecidableEq, Repr

/-- `config.New` (src/set.go): a fresh Set with the given name and error
handling policy and no flags. -/
def New (name : String) (errorHandling : ErrorHandling) : ConfigSet :=
  ⟨name, errorHandling, []⟩

/-- Alias for `String`, usable inside `ConfigSet.*` declarations where
the bare name `String` would resolve to the `ConfigSet.String`
declarator. -/
abbrev Str := String

/-- Alias for `Int` (see `Str`). -/
abbrev Zint := Int

/-- Go map lookup on the `formal` association list (keys are unique;
first match). -/
def lookupFlag : List (String × GoFlag) → String → Option GoFlag
  | [], _ => none
  | (n, fl) :: rest, key => if n = key then some fl else lookupFlag rest key

/-- Replace the value of the flag registered under `key` (the in-place
pointer write performed by `flag.Value.Set`); leaves the registry
untouched when `key` is absent. -/
def updateValue : List (String × GoFlag) → String → GoValue → List (String × GoFlag)
  | [], _, _ => []
  | (n, fl) :: rest, key, v =>
    if n = key then (n, { fl with value := v }) :: rest
    else (n, fl) :: updateValue rest key v

/-! ## strconv (Go 1.4): ParseBool / ParseUint / ParseInt, base 0, bitSize 64 -/

/-- Plain rendering of `strconv.Quote` (no escape sequences needed for
the strings this repository handles). -/
def goQuote (s : String) : String := "\"" ++ s ++ "\""

/-- The two `strconv` error kinds carried by `NumError`. -/
inductive NumErr where
  | syntaxE
  | rangeE
deriving DecidableEq, Repr

/-- Digit value as in strconv's per-character switch ('0'-'9',
'a'-'z', 'A'-'Z'); the caller rejects values `≥ base`. -/
def digitVal (c : Char) : Option Nat :=
  if '0' ≤ c ∧ c ≤ '9' then some (c.toNat - '0'.toNat)
  else if 'a' ≤ c ∧ c ≤ 'z' then some (c.toNat - 'a'.toNat + 10)
  else if 'A' ≤ c ∧ c ≤ 'Z' then some (c.toNat - 'A'.toNat + 10)
  else none

/-- `maxUint64`. -/
def maxU64 : Nat := 2 ^ 64 - 1

/-- strconv's `cutoff64(base)`: smallest n such that n*base overflows
uint64. -/
def cutoff64 (base : Nat) : Nat := maxU64 / base + 1

/-- The digit-accumulation loop of Go 1.4 `strconv.ParseUint` (bitSize
64): on a bad digit returns `(0, syntax)`, on overflow `(maxU64,
range)`. -/
def parseUintDigits (base : Nat) : List Char → Nat → Nat × Option NumErr
  | [], n => (n, none)
  | c :: rest, n =>
    match digitVal c with
    | none => (0, some NumErr.syntaxE)
    | some v =>
      if v ≥ base then (0, some NumErr.syntaxE)
      else if n ≥ cutoff64 base then (maxU64, some NumErr.rangeE)
      else
        let n1 := n * base + v
        if n1 > maxU64 then (maxU64, some NumErr.rangeE)
        else parseUintDigits base rest n1

/-- Go 1.4 `strconv.ParseUint(s, 0, 64)` minus the `NumError` wrapper:
base detection for base 0 (`0x`/`0X` prefix is base 16 and needs at
least one digit, a leading `0` is base 8, otherwise base 10), then the
digit loop.  A lone "0" falls to the base-10 branch with the same
result (0) as Go's base-8 branch with an empty digit loop. -/
def goParseUintCore : List Char → Nat × Option NumErr
  | [] => (0, some NumErr.syntaxE)
  | '0' :: c :: rest =>
    if c = 'x' ∨ c = 'X' then
      if rest = [] then (0, some NumErr.syntaxE)
      else parseUintDigits 16 rest 0
    else parseUintDigits 8 (c :: rest) 0
  | cs => parseUintDigits 10 cs 0

/-- Go 1.4 `strconv.ParseUint(s, 0, 64)` with its `NumError` rendering,
as called by `flag`'s `uintValue.Set`/`uint64Value.Set`.  The first
component is what the flag variable is set to even on error (0 on a
syntax error, the clamped max on a range error), per Go 1.4. -/
def goParseUint (s : String) : Nat × Option String :=
  match goParseUintCore s.data with
  | (n, none) => (n, none)
  | (_, some NumErr.syntaxE) =>
    (0, some ("strconv.ParseUint: parsing " ++ goQuote s ++ ": invalid syntax"))
  | (n, some NumErr.rangeE) =>
    (n, some ("strconv.ParseUint: parsing " ++ goQuote s ++ ": value out of range"))

/-- Go 1.4 `strconv.ParseInt(s, 0, 64)` with its `NumError` rendering,
as called by `flag`'s `intValue.Set`/`int64Value.Set`: strip an optional
sign, run the unsigned parse, then apply the signed cutoff 2^63 with
clamping on range errors. -/
def goParseInt (s : String) : Int × Option String :=
  match s.data with
  | [] => (0, some ("strconv.ParseInt: parsing " ++ goQuote s ++ ": invalid syntax"))
  | c :: rest =>
    let neg := c = '-'
    let digits := if c = '-' ∨ c = '+' then rest else c :: rest
    match goParseUintCore digits with
    | (_, some NumErr.syntaxE) =>
      (0, some ("strconv.ParseInt: parsing " ++ goQuote s ++ ": invalid syntax"))
    | (un, _) =>
      if ¬neg ∧ un ≥ 2 ^ 63 then
        (((2 ^ 63 - 1 : Nat) : Int),
         some ("strconv.ParseInt: parsing " ++ goQuote s ++ ": value out of range"))
      else if neg ∧ un > 2 ^ 63 then
        (-((2 ^ 63 : Nat) : Int),
         some ("strconv.ParseInt: parsing " ++ goQuote s ++ ": value out of range"))
      else (if neg then -(un : Int) else (un : Int), none)

/-- Go 1.4 `strconv.ParseBool`, as called by `flag`'s `boolValue.Set`:
exactly twelve accepted spellings; anything else is a syntax error and
the variable is set to `false`. -/
def goParseBool (s : String) : Bool × Option String :=
  if s = "1" ∨ s = "t" ∨ s = "T" ∨ s = "true" ∨ s = "TRUE" ∨ s = "True" then
    (true, none)
  else if s = "0" ∨ s = "f" ∨ s = "F" ∨ s = "false" ∨ s = "FALSE" ∨ s = "False" then
    (false, none)
  else
    (false, some ("strconv.ParseBool: parsing " ++ goQuote s ++ ": invalid syntax"))

/-! ## time.ParseDuration (Go 1.4), exact-arithmetic model

Go 1.4's `ParseDuration` accumulates `float64(x)/scale` contributions in
a float64; this model accumulates the same quantities as exact rationals
(`Rat`).  The two agree wherever the float computation is exact, which
covers every integral duration below 2^53 nanoseconds; only extreme
magnitudes or long fractions can differ by float rounding. -/

/-- `time.leadingInt`: consume leading decimal digits, accumulating an
int64 with Go's pre-multiplication overflow check; `none` is
`errLeadingInt`. -/
def leadingInt : List Char → Nat → Option (Nat × List Char)
  | [], x => some (x, [])
  | c :: rest, x =>
    if c < '0' ∨ c > '9' then some (x, c :: rest)
    else if x ≥ (2 ^ 63 - 1) / 10 then none
    else leadingInt rest (x * 10 + (c.toNat - '0'.toNat))

/-- `time`'s `unitMap` (Go 1.4): suffix → nanoseconds. -/
def unitMap : List (String × Nat) :=
  [("ns", 1), ("us", 1000), ("µs", 1000), ("ms", 1000000),
   ("s", 1000000000), ("m", 60000000000), ("h", 3600000000000)]

/-- Longest unit suffix at the head of `cs`: Go scans forward to the
next `.` or digit and looks the segment up in `unitMap`. -/
def splitUnit : List Char → List Char × List Char :=
  fun cs => (cs.takeWhile (fun c => ¬(c = '.' ∨ ('0' ≤ c ∧ c ≤ '9'))),
             cs.dropWhile (fun c => ¬(c = '.' ∨ ('0' ≤ c ∧ c ≤ '9'))))

/-- One iteration of ParseDuration's element loop
(`[0-9]*(\.[0-9]*)?unit`), returning the element's contribution in
nanoseconds (exact rational) and the remaining characters.  Errors carry
Go's exact message text; `orig` is the full original input. -/
def durElem (orig : String) (cs : List Char) : Except String (Rat × List Char) :=
  match cs with
  | [] => Except.error ("time: invalid duration " ++ orig)
  | c :: _ =>
    if ¬(c = '.' ∨ ('0' ≤ c ∧ c ≤ '9')) then
      Except.error ("time: invalid duration " ++ orig)
    else
      match leadingInt cs 0 with
      | none => Except.error ("time: invalid duration " ++ orig)
      | some (x, s1) =>
        let pre := s1.length ≠ cs.length
        let intPart : Rat := (x : Rat)
        match s1 with
        | '.' :: s2 =>
          match leadingInt s2 0 with
          | none => Except.error ("time: invalid duration " ++ orig)
          | some (y, s3) =>
            let fracDigits := s2.length - s3.length
            let post := fracDigits ≠ 0
            if ¬pre ∧ ¬post then Except.error ("time: invalid duration " ++ orig)
            else
              let g : Rat := intPart + (y : Rat) / ((10 : Rat) ^ fracDigits)
              match splitUnit s3 with
              | ([], _) => Except.error ("time: missing unit in duration " ++ orig)
              | (u, s4) =>
                match unitMap.lookup (String.mk u) with
                | none =>
                  Except.error ("time: unknown unit " ++ String.mk u ++
                    " in duration " ++ orig)
                | some unit => Except.ok (g * (unit : Rat), s4)
        | s2 =>
          if ¬pre then Except.error ("time: invalid duration " ++ orig)
          else
            match splitUnit s2 with
            | ([], _) => Except.error ("time: missing unit in duration " ++ orig)
            | (u, s3) =>
              match unitMap.lookup (String.mk u) with
              | none =>
                Except.error ("time: unknown unit " ++ String.mk u ++
                  " in duration " ++ orig)
              | some unit => Except.ok (intPart * (unit : Rat), s3)

/-- ParseDuration's element loop.  Each successful element consumes at
least one character (its unit is nonempty), so the fuel `cs.length + 1`
is never exhausted; the fuel-out branch repeats the invalid-duration
error and is unreachable. -/
def durSum (orig : String) : Nat → List Char → Rat → Except String Rat
  | _, [], acc => Except.ok acc
  | 0, _ :: _, _ => Except.error ("time: invalid duration " ++ orig)
  | fuel + 1, cs, acc =>
    match durElem orig cs with
    | Except.error e => Except.error e
    | Except.ok (g, rest) => durSum orig fuel rest (acc + g)

/-- Truncation toward zero, as Go's float64 → int64 conversion
(`Duration(f)`). -/
def ratTrunc (q : Rat) : Int :=
  if 0 ≤ q then q.floor else -((-q).floor)

/-- Go 1.4 `time.ParseDuration`, as called by `flag`'s
`durationValue.Set`: optional sign, the special case "0", the element
loop, then the int64 overflow check.  On error the flag variable is set
to 0 (Go 1.4 assigns the zero result through the pointer). -/
def goParseDuration (s : String) : Int × Option String :=
  let orig := s
  let cs := s.data
  let negRest : Bool × List Char :=
    match cs with
    | '-' :: rest => (true, rest)
    | '+' :: rest => (false, rest)
    | rest => (false, rest)
  match negRest with
  | (neg, rest) =>
    if rest = ['0'] then (0, none)
    else if rest = [] then (0, some ("time: invalid duration " ++ orig))
    else
      match durSum orig (rest.length + 1) rest 0 with
      | Except.error e => (0, some e)
      | Except.ok f =>
        let f := if neg then -f else f
        if f < -((2 : Rat) ^ 63) ∨ f > (2 : Rat) ^ 63 - 1 then
          (0, some "time: overflow parsing duration")
        else (ratTrunc f, none)

/-! ## flag.Value.Set dispatch -/

/-- The `flag.Value.Set` call for a flag whose declared type is given by
the constructor of `old`: parse `s` per the type, return the value
written through the pointer (written even on error, per Go 1.4) and the
error.  String flags always succeed. -/
def goSet : GoValue → String → GoValue × Option String
  | GoValue.boolV _, s => match goParseBool s with | (b, e) => (GoValue.boolV b, e)
  | GoValue.intV _, s => match goParseInt s with | (v, e) => (GoValue.intV v, e)
  | GoValue.int64V _, s => match goParseInt s with | (v, e) => (GoValue.int64V v, e)
  | GoValue.uintV _, s => match goParseUint s with | (n, e) => (GoValue.uintV n, e)
  | GoValue.uint64V _, s => match goParseUint s with | (n, e) => (GoValue.uint64V n, e)
  | GoValue.stringV _, s => (GoValue.stringV s, none)
  | GoValue.durationV _, s => match goParseDuration s with | (d, e) => (GoValue.durationV d, e)

/-! ## buildLoadError (src/set.go lines 200-212)

`buildLoadError` matches the raw error text against two Go regexps:
`missingFlag` = `^no such flag -([^\s]+)` used with
`ReplaceAllString(err, "$1 is not a valid config setting")`, and
`invalidSyntax` = `^.+ parsing "(.+)": invalid syntax$` used only as a
match test.  The matchers below are the exact RE2 semantics specialized
to these two patterns: `\s` is `[\t\n\f\r ]`; `.` matches any character
except newline; `^`/`$` anchor to the whole text (no multiline flag), so
the anchored `missingFlag` pattern can match (and hence replace) at most
once, with the greedy `[^\s]+` capturing the maximal nonspace run and
the unmatched remainder of the text carried over unchanged. -/

/-- RE2 `\s`: `[\t\n\f\r ]`. -/
def goIsSpace (c : Char) : Bool :=
  c = ' ' ∨ c = '\t' ∨ c = '\n' ∨ c = '\x0c' ∨ c = '\r'

/-- The literal prefix of the `missingFlag` pattern. -/
def missingFlagPat : List Char := "no such flag -".data

/-- Whether `^no such flag -([^\s]+)` matches `cs`: the literal prefix
followed by at least one nonspace character. -/
def missingFlagMatch (cs : List Char) : Bool :=
  missingFlagPat.isPrefixOf cs &&
    match cs.drop missingFlagPat.length with
    | [] => false
    | c :: _ => !goIsSpace c

/-- The literal ` parsing "` infix of the `invalidSyntax` pattern. -/
def parsingPat : List Char := " parsing \"".data

/-- The literal `": invalid syntax` tail of the `invalidSyntax`
pattern. -/
def invalidSuffixPat : List Char := "\": invalid syntax".data

/-- Whether `pat` occurs inside `l` at some position, with at least one
character remaining after the occurrence (the nonempty `(.+)` capture
group). -/
def hasInfixNE (pat : List Char) : List Char → Bool
  | [] => false
  | c :: rest =>
    (pat.isPrefixOf (c :: rest) && (c :: rest).length > pat.length) || hasInfixNE pat rest

/-- Whether `^.+ parsing "(.+)": invalid syntax$` matches `cs`: no
newline anywhere (every character is consumed by the pattern and `.`
excludes newline), the literal tail at the end, and ` parsing "` at some
position ≥ 1 of the remaining core with a nonempty capture after it. -/
def invalidSyntaxMatch (cs : List Char) : Bool :=
  cs.all (fun c => c ≠ '\n') && invalidSuffixPat.isSuffixOf cs &&
    match cs.take (cs.length - invalidSuffixPat.length) with
    | [] => false
    | _ :: core => hasInfixNE parsingPat core

/-- `buildLoadError` (src/set.go): rewrite the two recognized error
shapes; pass anything else through unmodified.  Character-list core. -/
def buildLoadErrorCore (path errCs : List Char) : List Char :=
  if missingFlagMatch errCs then
    let rest := errCs.drop missingFlagPat.length
    rest.takeWhile (fun c => !goIsSpace c) ++ " is not a valid config setting".data ++
      rest.dropWhile (fun c => !goIsSpace c)
  else if invalidSyntaxMatch errCs then
    "The value for ".data ++ path ++ " is invalid".data
  else errCs

/-- `buildLoadError` (src/set.go lines 200-212) on Strings. -/
def buildLoadError (path : String) (err : String) : String :=
  String.mk (buildLoadErrorCore path.data err.data)

/-! ## TOML documents and the tree flattener (src/set.go lines 178-196) -/

/-- A scalar TOML leaf as stored by `go-toml`'s tree (`bool`, `int64`,
`string`); the string case also carries TOML duration-like strings such
as "30s".  See the header note for the omitted leaf kinds. -/
inductive TomlScalar where
  | sBool (b : Bool)
  | sInt (i : Int)
  | sString (s : String)
deriving DecidableEq, Repr

/-- A value in a parsed `toml.TomlTree`: a scalar leaf or a nested
sub-tree (list of key/value pairs; TOML keys are unique per level). -/
inductive TomlValue where
  | scalar (sc : TomlScalar)
  | table (items : List (String × TomlValue))
deriving Repr

/-- `fmt.Sprintf("%v", value)` for the modelled scalar leaves. -/
def sprintv : TomlScalar → String
  | TomlScalar.sBool true => "true"
  | TomlScalar.sBool false => "false"
  | TomlScalar.sInt i => toString i
  | TomlScalar.sString s => s

/-- `flag.FlagSet.Set` (called as `c.Set(fullPath, ...)` in
`loadTomlTree`): look the flag up in `formal`; unknown names yield
`no such flag -<name>`; otherwise run the typed `Value.Set`, writing the
parsed value through the flag's pointer (even on a parse error) and
returning the parse error if any.  (`FlagSet.actual` bookkeeping on
success is not observable through this repository and is omitted.) -/
def ConfigSet.setFromString (c : ConfigSet) (key value : String) : ConfigSet × Option String :=
  match lookupFlag c.formal key with
  | none => (c, some ("no such flag -" ++ key))
  | some fl =>
    match goSet fl.value value with
    | (v, e) => ({ c with formal := updateValue c.formal key v }, e)

/-- `Set.loadTomlTree` (src/set.go lines 178-196): walk the tree's keys
in order; recurse into sub-trees with the extended path (no assignment
at internal nodes); at a scalar leaf call `Set(fullPath,
Sprintf("%v",value))` with the dotted join, wrapping a failure with
`buildLoadError` and aborting the traversal. -/
def ConfigSet.loadTomlTree : ConfigSet → List (String × TomlValue) → List String →
    ConfigSet × Option String
  | c, [], _ => (c, none)
  | c, (key, TomlValue.table sub) :: rest, path =>
    (match ConfigSet.loadTomlTree c sub (path ++ [key]) with
     | (c1, none) => ConfigSet.loadTomlTree c1 rest path
     | (c1, some e) => (c1, some e))
  | c, (key, TomlValue.scalar sc) :: rest, path =>
    (match c.setFromString (String.intercalate "." (path ++ [key])) (sprintv sc) with
     | (c1, none) => ConfigSet.loadTomlTree c1 rest path
     | (c1, some e) => (c1, some (buildLoadError (String.intercalate "." (path ++ [key])) e)))

/-- The leaves of a TOML tree in traversal order, as (dotted path,
`%v`-rendered value) pairs with the given accumulated path prefix. -/
def leaves : List (String × TomlValue) → List String → List (String × String)
  | [], _ => []
  | (key, TomlValue.table sub) :: rest, path =>
    leaves sub (path ++ [key]) ++ leaves rest path
  | (key, TomlValue.scalar sc) :: rest, path =>
    (String.intercalate "." (path ++ [key]), sprintv sc) :: leaves rest path

/-- Sequential processing of flattened leaves: the first failing
`setFromString` aborts, its error wrapped by `buildLoadError`; this is
the specification-level view of `loadTomlTree` (see
`loadTomlTree_eq_loadLeaves`). -/
def loadLeaves : ConfigSet → List (String × String) → ConfigSet × Option String
  | c, [] => (c, none)
  | c, (p, v) :: rest =>
    match c.setFromString p v with
    | (c1, none) => loadLeaves c1 rest
    | (c1, some e) => (c1, some (buildLoadError p e))

/-! ## Per-type declarators (src/set.go lines 32-124)

Each declarator is a one-line delegation to `flag.FlagSet`'s Xxx/XxxVar,
which registers the flag via `FlagSet.Var` and hands back a pointer to
its storage (the handle here is the name itself; reading the handle is
`lookupFlag`).  The repository always passes `""` for usage.  The `Var`
forms register identically and are not repeated.  `Set.Duration` alone
delegates to `globalConfig.FlagSet.Duration` — `globalConfig` being the
upstream project's name for the package-global Set, an identifier this
fork does not define — instead of `c.FlagSet.Duration`, so it is
modelled with the global Set threaded explicitly. -/

/-- `flag.FlagSet.Var`: register a flag under `key` with the given
default.  Go panics ("flag redefined") when `key` is already declared;
that case keeps the first definition here and is unreachable in the
claims (fresh names only). -/
def ConfigSet.varFlag (c : ConfigSet) (key : String) (v : GoValue) (usage : String) : ConfigSet :=
  if (lookupFlag c.formal key).isSome then c
  else { c with formal := c.formal ++ [(key, ⟨v, v, usage⟩)] }

/-- `Set.Bool` (src/set.go): `c.FlagSet.Bool(name, value, "")`. -/
def ConfigSet.Bool (c : ConfigSet) (key : String) (value : Bool) : ConfigSet :=
  c.varFlag key (GoValue.boolV value) ""

/-- `Set.Int` (src/set.go): `c.FlagSet.Int(name, value, "")`. -/
def ConfigSet.Int (c : ConfigSet) (key : String) (value : Int) : ConfigSet :=
  c.varFlag key (GoValue.intV value) ""

/-- `Set.Int64` (src/set.go): `c.FlagSet.Int64(name, value, "")`. -/
def ConfigSet.Int64 (c : ConfigSet) (key : Str) (value : Zint) : ConfigSet :=
  c.varFlag key (GoValue.int64V value) ""

/-- `Set.Uint` (src/set.go): `c.FlagSet.Uint(name, value, "")`. -/
def ConfigSet.Uint (c : ConfigSet) (key : Str) (value : Nat) : ConfigSet :=
  c.varFlag key (GoValue.uintV value) ""

/-- `Set.Uint64` (src/set.go): `c.FlagSet.Uint64(name, value, "")`. -/
def ConfigSet.Uint64 (c : ConfigSet) (key : Str) (value : Nat) : ConfigSet :=
  c.varFlag key (GoValue.uint64V value) ""

/-- `Set.String` (src/set.go): `c.FlagSet.String(name, value, "")`. -/
def ConfigSet.String (c : ConfigSet) (key : Str) (value : Str) : ConfigSet :=
  c.varFlag key (GoValue.stringV value) ""

/-- `Set.Duration` (src/set.go lines 120-124): the body is
`return globalConfig.FlagSet.Duration(name, value, "")` — it registers
the flag on the package-global Set, NOT on the receiver `c` (every other
declarator uses `c.FlagSet`).  Both stores are returned: the updated
global Set and the untouched receiver. -/
def ConfigSet.Duration (globalConfig : ConfigSet) (c : ConfigSet) (key : Str)
    (value : Zint) : ConfigSet × ConfigSet :=
  (globalConfig.varFlag key (GoValue.durationV value) "", c)

/-! ## Document loading entry points (src/set.go lines 129-174) -/

/-- The observable outcome of a load or argument-parse entry point:
an error (or nil) returned to the caller together with the Set's final
registry state, or a process exit / panic (which the argument-parsing
path can produce under `ExitOnError`/`PanicOnError` policy, and load
paths never do). -/
inductive LoadOutcome where
  | ok (c : ConfigSet)
  | err (c : ConfigSet) (msg : String)
  | exited (code : Nat)
  | panicked (msg : String)
deriving DecidableEq, Repr

/-- Whether the outcome terminated the process instead of returning. -/
def LoadOutcome.terminates : LoadOutcome → Bool
  | LoadOutcome.exited _ => true
  | LoadOutcome.panicked _ => true
  | _ => false

/-- The Set state carried by a returned (non-terminating) outcome. -/
def LoadOutcome.confSet : LoadOutcome → Option ConfigSet
  | LoadOutcome.ok c => some c
  | LoadOutcome.err c _ => some c
  | _ => none

/-- Apply a state transformation to a returned outcome's Set. -/
def LoadOutcome.mapSet (f : ConfigSet → ConfigSet) : LoadOutcome → LoadOutcome
  | LoadOutcome.ok c => LoadOutcome.ok (f c)
  | LoadOutcome.err c m => LoadOutcome.err (f c) m
  | LoadOutcome.exited n => LoadOutcome.exited n
  | LoadOutcome.panicked m => LoadOutcome.panicked m

/-- `Set.Parse` (src/set.go lines 129-147).  The two external effects
are passed as explicit functions: `readFile` is `ioutil.ReadFile`
(errors are the I/O error's text, which Go renders with the path
included) and `tomlLoad` is `toml.Load` from `pelletier/go-toml`
(parse errors are opaque to this repository, which discards them).
A read failure is returned verbatim; a TOML parse failure is replaced
with the fixed message naming the path; otherwise the tree is flattened
into the Set. -/
def ConfigSet.Parse (c : ConfigSet) (readFile : Str → Except Str Str)
    (tomlLoad : Str → Except Unit (List (Str × TomlValue)))
    (path : Str) : LoadOutcome :=
  match readFile path with
  | Except.error e => LoadOutcome.err c e
  | Except.ok contents =>
    match tomlLoad contents with
    | Except.error _ =>
      LoadOutcome.err c (path ++ " is not a valid TOML file. See https://github.com/mojombo/toml")
    | Except.ok tree =>
      match c.loadTomlTree tree [] with
      | (c1, none) => LoadOutcome.ok c1
      | (c1, some e) => LoadOutcome.err c1 e

/-- `Set.ParseString` (src/set.go lines 152-165): like `Parse` without
the file read; a TOML parse failure yields the fixed message without any
path. -/
def ConfigSet.ParseString (c : ConfigSet)
    (tomlLoad : Str → Except Unit (List (Str × TomlValue)))
    (str : Str) : LoadOutcome :=
  match tomlLoad str with
  | Except.error _ =>
    LoadOutcome.err c "Not a valid TOML. See https://github.com/mojombo/toml"
  | Except.ok tree =>
    match c.loadTomlTree tree [] with
    | (c1, none) => LoadOutcome.ok c1
    | (c1, some e) => LoadOutcome.err c1 e

/-- The current value of the setting declared under `key` (what the
host program reads through the handle returned at declaration). -/
def currentValue (c : ConfigSet) (key : String) : Option GoValue :=
  (lookupFlag c.formal key).map GoFlag.value

/-- The declaration-time data of a Set's registry: names with their
defaults and usage strings, in order. -/
def declSig (c : ConfigSet) : List (String × GoValue × String) :=
  c.formal.map (fun nf => (nf.1, nf.2.defValue, nf.2.usage))

/-- A depth-`ks.length` chain of singleton tables ending in one scalar
leaf: `nestedSingleton [a,b,c] d v` is the tree of `a.b.c.d = v`. -/
def nestedSingleton : List Str → Str → TomlScalar → List (Str × TomlValue)
  | [], k, sc => [(k, TomlValue.scalar sc)]
  | a :: as, k, sc => [(a, TomlValue.table (nestedSingleton as k sc))]

/-- Replace a Set's error-handling policy (the field `flag.NewFlagSet`
stores at construction), leaving the registry alone. -/
def setPolicy (c : ConfigSet) (eh : ErrorHandling) : ConfigSet :=
  { c with errorHandling := eh }

/-! ## Registry lemmas -/

theorem lookupFlag_updateValue_ne (l : List (String × GoFlag)) (key : String) (v : GoValue)
    (m : String) (h : m ≠ key) : lookupFlag (updateValue l key v) m = lookupFlag l m := by
  induction l with
  | nil => rfl
  | cons hd tl ih =>
    obtain ⟨n, fl⟩ := hd
    by_cases hn : n = key
    · subst hn
      simp [updateValue, lookupFlag, Ne.symm h]
    · simp [updateValue, lookupFlag, hn]
      by_cases hm : n = m
      · simp [hm]
      · simp [hm, ih]

theorem lookupFlag_updateValue_self (l : List (String × GoFlag)) (key : String) (v : GoValue) :
    lookupFlag (updateValue l key v) key =
      (lookupFlag l key).map (fun fl => { fl with value := v }) := by
  induction l with
  | nil => rfl
  | cons hd tl ih =>
    obtain ⟨n, fl⟩ := hd
    by_cases hn : n = key
    · subst hn
      simp [updateValue, lookupFlag]
    · simp [updateValue, lookupFlag, hn, ih]

theorem declSig_eq_of_formal (c c1 : ConfigSet)
    (h : c1.formal.map (fun nf => (nf.1, nf.2.defValue, nf.2.usage)) =
         c.formal.map (fun nf => (nf.1, nf.2.defValue, nf.2.usage))) :
    declSig c1 = declSig c := h

theorem map_declData_updateValue (l : List (String × GoFlag)) (key : String) (v : GoValue) :
    (updateValue l key v).map (fun nf => (nf.1, nf.2.defValue, nf.2.usage)) =
      l.map (fun nf => (nf.1, nf.2.defValue, nf.2.usage)) := by
  induction l with
  | nil => rfl
  | cons hd tl ih =>
    obtain ⟨n, fl⟩ := hd
    by_cases hn : n = key
    · simp [updateValue, hn]
    · simp [updateValue, hn, ih]

/-- `setFromString` leaves names, defaults and usage strings untouched. -/
theorem declSig_setFromString (c : ConfigSet) (key value : String) :
    declSig (c.setFromString key value).1 = declSig c := by
  unfold ConfigSet.setFromString
  match h : lookupFlag c.formal key with
  | none => simp [h]
  | some fl =>
    simp [h, declSig]
    exact map_declData_updateValue c.formal key (goSet fl.value value).1

/-- `setFromString` touches no name other than the one given. -/
theorem setFromString_lookup_ne (c : ConfigSet) (key value : String) (m : String)
    (h : m ≠ key) : lookupFlag (c.setFromString key value).1.formal m = lookupFlag c.formal m := by
  unfold ConfigSet.setFromString
  match hk : lookupFlag c.formal key with
  | none => simp [hk]
  | some fl => simp [hk, lookupFlag_updateValue_ne _ _ _ _ h]

theorem setFromString_errorHandling (c : ConfigSet) (key value : String) :
    (c.setFromString key value).1.errorHandling = c.errorHandling := by
  unfold ConfigSet.setFromString
  match hk : lookupFlag c.formal key with
  | none => simp [hk]
  | some fl => simp [hk]

theorem setFromString_name (c : ConfigSet) (key value : String) :
    (c.setFromString key value).1.name = c.name := by
  unfold ConfigSet.setFromString
  match hk : lookupFlag c.formal key with
  | none => simp [hk]
  | some fl => simp [hk]

/-! ## Flattening lemmas -/

theorem loadLeaves_append (c : ConfigSet) (l1 l2 : List (String × String)) :
    loadLeaves c (l1 ++ l2) =
      match loadLeaves c l1 with
      | (c1, none) => loadLeaves c1 l2
      | (c1, some e) => (c1, some e) := by
  induction l1 generalizing c with
  | nil => simp [loadLeaves]
  | cons hd tl ih =>
    obtain ⟨p, v⟩ := hd
    simp only [List.cons_append, loadLeaves]
    match hs : c.setFromString p v with
    | (c1, none) => simpa using ih c1
    | (c1, some e) => simp

/-- Refinement: the recursive tree walk is sequential processing of the
flattened leaves — assignments happen exactly at the leaves, in
traversal order, and nowhere else. -/
theorem loadTomlTree_eq_loadLeaves (c : ConfigSet) (items : List (String × TomlValue))
    (path : List String) : c.loadTomlTree items path = loadLeaves c (leaves items path) := by
  induction c, items, path using ConfigSet.loadTomlTree.induct with
  | case1 c path => simp [ConfigSet.loadTomlTree, leaves, loadLeaves]
  | case2 c key sub rest path c1 hsub ih1 ih2 =>
    have h1 : loadLeaves c (leaves sub (path ++ [key])) = (c1, none) := by rw [← ih1, hsub]
    simp only [ConfigSet.loadTomlTree, leaves, hsub, loadLeaves_append, h1]
    exact ih2
  | case3 c key sub rest path c1 e hsub ih1 =>
    have h1 : loadLeaves c (leaves sub (path ++ [key])) = (c1, some e) := by rw [← ih1, hsub]
    simp only [ConfigSet.loadTomlTree, leaves, hsub, loadLeaves_append, h1]
  | case4 c key sc rest path c1 hset ih =>
    simp only [ConfigSet.loadTomlTree, leaves, loadLeaves, hset]
    exact ih
  | case5 c key sc rest path c1 e hset =>
    simp only [ConfigSet.loadTomlTree, leaves, loadLeaves, hset]

/-- Unfolding of `setFromString` at a declared name (uses Prod eta). -/
theorem setFromString_eq_some (c : ConfigSet) (key value : String) (fl : GoFlag)
    (h : lookupFlag c.formal key = some fl) :
    c.setFromString key value =
      ({ c with formal := updateValue c.formal key (goSet fl.value value).1 },
       (goSet fl.value value).2) := by
  unfold ConfigSet.setFromString
  rw [h]

/-- Frame: any load (successful or aborted) leaves every name outside
the processed leaf paths exactly as it was. -/
theorem loadLeaves_lookup_not_mem (ls : List (String × String)) (c c1 : ConfigSet)
    (r : Option String) (h : loadLeaves c ls = (c1, r)) (m : String)
    (hm : m ∉ ls.map Prod.fst) :
    lookupFlag c1.formal m = lookupFlag c.formal m := by
  induction ls generalizing c with
  | nil =>
    simp only [loadLeaves] at h
    cases h
    rfl
  | cons hd tl ih =>
    obtain ⟨p, v⟩ := hd
    simp only [List.map_cons, List.mem_cons, not_or] at hm
    obtain ⟨hmp, hmtl⟩ := hm
    simp only [loadLeaves] at h
    have hl := setFromString_lookup_ne c p v m hmp
    match hs : c.setFromString p v with
    | (c2, none) =>
      rw [hs] at h hl
      exact (ih c2 h hmtl).trans hl
    | (c2, some e) =>
      rw [hs] at h hl
      cases h
      exact hl

/-- Names, defaults and usage strings survive any load. -/
theorem loadLeaves_declSig (ls : List (String × String)) (c : ConfigSet) :
    declSig (loadLeaves c ls).1 = declSig c := by
  induction ls generalizing c with
  | nil => rfl
  | cons hd tl ih =>
    obtain ⟨p, v⟩ := hd
    simp only [loadLeaves]
    have hd2 := declSig_setFromString c p v
    match hs : c.setFromString p v with
    | (c2, none) =>
      rw [hs] at hd2
      exact (ih c2).trans hd2
    | (c2, some e) =>
      rw [hs] at hd2
      exact hd2

theorem loadLeaves_errorHandling (ls : List (String × String)) (c : ConfigSet) :
    (loadLeaves c ls).1.errorHandling = c.errorHandling := by
  induction ls generalizing c with
  | nil => rfl
  | cons hd tl ih =>
    obtain ⟨p, v⟩ := hd
    simp only [loadLeaves]
    have hd2 := setFromString_errorHandling c p v
    match hs : c.setFromString p v with
    | (c2, none) =>
      rw [hs] at hd2
      exact (ih c2).trans hd2
    | (c2, some e) =>
      rw [hs] at hd2
      exact hd2

/-- Success: when every leaf path is declared, leaf paths are distinct,
and every value parses under its flag's declared type, the whole load
succeeds, each processed flag ends at the parse of its document value,
and everything else is untouched. -/
theorem loadLeaves_ok (ls : List (String × String)) (c : ConfigSet)
    (hnodup : (ls.map Prod.fst).Nodup)
    (hok : ∀ pv ∈ ls, ∃ fl, lookupFlag c.formal pv.1 = some fl ∧
      (goSet fl.value pv.2).2 = none) :
    ∃ c1, loadLeaves c ls = (c1, none) ∧
      (∀ pv ∈ ls, ∀ fl, lookupFlag c.formal pv.1 = some fl →
        lookupFlag c1.formal pv.1 = some { fl with value := (goSet fl.value pv.2).1 }) ∧
      (∀ m, m ∉ ls.map Prod.fst → lookupFlag c1.formal m = lookupFlag c.formal m) := by
  induction ls generalizing c with
  | nil => exact ⟨c, rfl, by simp, fun m _ => rfl⟩
  | cons hd tl ih =>
    obtain ⟨p, v⟩ := hd
    simp only [List.map_cons, List.nodup_cons] at hnodup
    obtain ⟨hp_tl, hnodup_tl⟩ := hnodup
    obtain ⟨fl0, hfl0, hparse0⟩ := hok (p, v) (List.mem_cons_self _ _)
    simp only at hfl0 hparse0
    have hset := setFromString_eq_some c p v fl0 hfl0
    rw [hparse0] at hset
    set c2 : ConfigSet := { c with formal := updateValue c.formal p (goSet fl0.value v).1 }
      with hc2
    have hlook2 : ∀ m, m ≠ p → lookupFlag c2.formal m = lookupFlag c.formal m := by
      intro m hmne
      exact lookupFlag_updateValue_ne c.formal p _ m hmne
    have hlook2p : lookupFlag c2.formal p = some { fl0 with value := (goSet fl0.value v).1 } := by
      rw [hc2]
      show lookupFlag (updateValue c.formal p (goSet fl0.value v).1) p = _
      rw [lookupFlag_updateValue_self, hfl0]
      rfl
    have hok2 : ∀ pv ∈ tl, ∃ fl, lookupFlag c2.formal pv.1 = some fl ∧
        (goSet fl.value pv.2).2 = none := by
      intro pv hpv
      have hne : pv.1 ≠ p := by
        intro hcontra
        exact hp_tl (hcontra ▸ List.mem_map_of_mem Prod.fst hpv)
      rw [hlook2 pv.1 hne]
      exact hok pv (List.mem_cons_of_mem _ hpv)
    obtain ⟨c1, hload, hvals, hframe⟩ := ih c2 hnodup_tl hok2
    refine ⟨c1, ?_, ?_, ?_⟩
    · simp only [loadLeaves, hset]
      exact hload
    · intro pv hpv fl hfl
      obtain ⟨q, w⟩ := pv
      rcases List.mem_cons.mp hpv with heq | htl
      · cases heq
        simp only at hfl ⊢
        rw [hfl0] at hfl
        injection hfl with hfl
        subst hfl
        rw [hframe p hp_tl]
        exact hlook2p
      · have hne : q ≠ p := by
          intro hcontra
          exact hp_tl (hcontra ▸ List.mem_map_of_mem Prod.fst htl)
        have hfl2 : lookupFlag c2.formal q = some fl := by
          rw [hlook2 q hne]
          exact hfl
        exact hvals (q, w) htl fl hfl2
    · intro m hm
      simp only [List.map_cons, List.mem_cons, not_or] at hm
      obtain ⟨hmp, hmtl⟩ := hm
      rw [hframe m hmtl, hlook2 m hmp]

/-- Failure: an erroring load decomposes as a successfully processed
prefix of the leaves, then one failing `setFromString` whose raw error,
wrapped by `buildLoadError`, is the returned error; the returned state
is the state right after the failing call (prefix assignments kept, no
rollback), and the leaves after the failing one are never processed. -/
theorem loadLeaves_err (ls : List (String × String)) (c c1 : ConfigSet) (e : String)
    (h : loadLeaves c ls = (c1, some e)) :
    ∃ pre p v rest c2 raw,
      ls = pre ++ (p, v) :: rest ∧
      loadLeaves c pre = (c2, none) ∧
      (c2.setFromString p v).2 = some raw ∧
      c1 = (c2.setFromString p v).1 ∧
      e = buildLoadError p raw := by
  induction ls generalizing c with
  | nil =>
    simp only [loadLeaves] at h
    cases h
  | cons hd tl ih =>
    obtain ⟨p, v⟩ := hd
    simp only [loadLeaves] at h
    match hs : c.setFromString p v with
    | (cx, none) =>
      rw [hs] at h
      obtain ⟨pre, q, w, rest, c2, raw, hsplit, hpre, hfail, hc1, he⟩ := ih cx h
      refine ⟨(p, v) :: pre, q, w, rest, c2, raw, by rw [hsplit]; rfl, ?_, hfail, hc1, he⟩
      simp only [loadLeaves, hs]
      exact hpre
    | (cx, some raw) =>
      rw [hs] at h
      cases h
      exact ⟨[], p, v, tl, c, raw, rfl, rfl, by rw [hs], by rw [hs], rfl⟩

/-! ## buildLoadError lemmas -/

theorem missingFlagMatch_true (nm : List Char) (hne : nm ≠ [])
    (hns : ∀ a ∈ nm, ¬goIsSpace a) : missingFlagMatch (missingFlagPat ++ nm) = true := by
  unfold missingFlagMatch
  have hpre : missingFlagPat.isPrefixOf (missingFlagPat ++ nm) = true := by
    rw [ List.isPrefixOf_iff_prefix]
    exact List.prefix_append _ _
  rw [hpre, List.drop_left]
  match nm, hne with
  | a :: rest, _ =>
    have := hns a (List.mem_cons_self a rest)
    simp [this]

theorem buildLoadErrorCore_missing (path nm : List Char) (hne : nm ≠ [])
    (hns : ∀ a ∈ nm, ¬goIsSpace a) :
    buildLoadErrorCore path (missingFlagPat ++ nm) =
      nm ++ " is not a valid config setting".data := by
  unfold buildLoadErrorCore
  rw [missingFlagMatch_true nm hne hns]
  simp only [if_true, List.drop_left]
  have htake : nm.takeWhile (fun c => !goIsSpace c) = nm := by
    rw [List.takeWhile_eq_self_iff]
    intro a ha
    simpa using hns a ha
  have hdrop : nm.dropWhile (fun c => !goIsSpace c) = [] := by
    rw [List.dropWhile_eq_nil_iff]
    intro a ha
    simpa using hns a ha
  rw [htake, hdrop, List.append_nil]

theorem hasInfixNE_append (front tail : List Char) (htail : tail ≠ []) :
    hasInfixNE parsingPat (front ++ (parsingPat ++ tail)) = true := by
  induction front with
  | nil =>
    rw [List.nil_append]
    have hpre : parsingPat.isPrefixOf (parsingPat ++ tail) = true := by
      rw [ List.isPrefixOf_iff_prefix]
      exact List.prefix_append _ _
    have hlen : (parsingPat ++ tail).length > parsingPat.length := by
      rw [List.length_append]
      have h0 : 0 < tail.length := List.length_pos.mpr htail
      omega
    have hcons : parsingPat ++ tail = ' ' :: ("parsing \"".data ++ tail) := rfl
    rw [hcons]
    unfold hasInfixNE
    rw [← hcons, Bool.or_eq_true, Bool.and_eq_true]
    left
    exact ⟨hpre, by simpa using hlen⟩
  | cons x xs ih =>
    rw [List.cons_append]
    unfold hasInfixNE
    rw [ih]
    simp

theorem invalidSyntaxMatch_true (front mid : List Char) (hfront : front ≠ [])
    (hmid : mid ≠ []) (hfn : ∀ a ∈ front, a ≠ '\n') (hmn : ∀ a ∈ mid, a ≠ '\n') :
    invalidSyntaxMatch (front ++ parsingPat ++ mid ++ invalidSuffixPat) = true := by
  unfold invalidSyntaxMatch
  have hall : (front ++ parsingPat ++ mid ++ invalidSuffixPat).all (fun c => c ≠ '\n') = true := by
    simp only [List.all_append, Bool.and_eq_true]
    refine ⟨⟨⟨?_, by decide⟩, ?_⟩, by decide⟩
    · rw [List.all_eq_true]
      intro a ha
      simpa using hfn a ha
    · rw [List.all_eq_true]
      intro a ha
      simpa using hmn a ha
  have hsuf : invalidSuffixPat.isSuffixOf (front ++ parsingPat ++ mid ++ invalidSuffixPat) = true := by
    rw [List.isSuffixOf_iff_suffix]
    have : front ++ parsingPat ++ mid ++ invalidSuffixPat =
        (front ++ parsingPat ++ mid) ++ invalidSuffixPat := by simp [List.append_assoc]
    rw [this]
    exact List.suffix_append _ _
  have hcore : (front ++ parsingPat ++ mid ++ invalidSuffixPat).take
      ((front ++ parsingPat ++ mid ++ invalidSuffixPat).length - invalidSuffixPat.length) =
      front ++ parsingPat ++ mid := by
    have h1 : front ++ parsingPat ++ mid ++ invalidSuffixPat =
        (front ++ parsingPat ++ mid) ++ invalidSuffixPat := by simp [List.append_assoc]
    rw [h1]
    have h2 : ((front ++ parsingPat ++ mid) ++ invalidSuffixPat).length - invalidSuffixPat.length =
        (front ++ parsingPat ++ mid).length := by
      rw [List.length_append]
      omega
    rw [h2, List.take_left]
  rw [hall, hsuf, hcore]
  match front, hfront with
  | a :: front1, _ =>
    have : a :: front1 ++ parsingPat ++ mid = a :: (front1 ++ (parsingPat ++ mid)) := by
      simp [List.append_assoc]
    rw [this]
    simp only [Bool.true_and]
    exact hasInfixNE_append front1 mid hmid

theorem buildLoadErrorCore_invalid (path front mid : List Char) (hfront : front ≠ [])
    (hmid : mid ≠ []) (hfn : ∀ a ∈ front, a ≠ '\n') (hmn : ∀ a ∈ mid, a ≠ '\n')
    (hnoflag : missingFlagMatch (front ++ parsingPat ++ mid ++ invalidSuffixPat) = false) :
    buildLoadErrorCore path (front ++ parsingPat ++ mid ++ invalidSuffixPat) =
      "The value for ".data ++ path ++ " is invalid".data := by
  unfold buildLoadErrorCore
  rw [hnoflag, invalidSyntaxMatch_true front mid hfront hmid hfn hmn]
  simp

theorem buildLoadErrorCore_passthrough (path cs : List Char)
    (h1 : missingFlagMatch cs = false) (h2 : invalidSyntaxMatch cs = false) :
    buildLoadErrorCore path cs = cs := by
  unfold buildLoadErrorCore
  rw [h1, h2]
  simp

/-! ## Policy-independence lemmas -/

theorem setFromString_setPolicy (c : ConfigSet) (eh : ErrorHandling) (p v : String) :
    (setPolicy c eh).setFromString p v =
      (setPolicy (c.setFromString p v).1 eh, (c.setFromString p v).2) := by
  unfold ConfigSet.setFromString setPolicy
  dsimp only
  match h : lookupFlag c.formal p with
  | none => rfl
  | some fl => rfl

theorem loadLeaves_setPolicy (ls : List (String × String)) (c : ConfigSet)
    (eh : ErrorHandling) :
    loadLeaves (setPolicy c eh) ls =
      (setPolicy (loadLeaves c ls).1 eh, (loadLeaves c ls).2) := by
  induction ls generalizing c with
  | nil => rfl
  | cons hd tl ih =>
    obtain ⟨p, v⟩ := hd
    simp only [loadLeaves, setFromString_setPolicy]
    match hs : c.setFromString p v with
    | (c2, none) => exact ih c2
    | (c2, some e) => rfl

theorem loadTomlTree_setPolicy (c : ConfigSet) (doc : List (String × TomlValue))
    (path : List String) (eh : ErrorHandling) :
    (setPolicy c eh).loadTomlTree doc path =
      (setPolicy (c.loadTomlTree doc path).1 eh, (c.loadTomlTree doc path).2) := by
  rw [loadTomlTree_eq_loadLeaves, loadTomlTree_eq_loadLeaves, loadLeaves_setPolicy]

theorem leaves_nestedSingleton (ks : List String) (k : String) (sc : TomlScalar)
    (path : List String) :
    leaves (nestedSingleton ks k sc) path =
      [(String.intercalate "." (path ++ ks ++ [k]), sprintv sc)] := by
  induction ks generalizing path with
  | nil => simp [nestedSingleton, leaves]
  | cons a as ih =>
    simp only [nestedSingleton, leaves, List.append_nil]
    rw [ih (path ++ [a])]
    simp

/-! ## Claims -/

/-- C6: flattening joins the keys from the root to a leaf with "." into
the full dotted path — a nested chain `a.b.c.d = v` of arbitrary depth
flattens to the single dotted path; the tree walk performs assignments
exactly at the flattened leaves (none at internal sub-tree nodes); an
empty sub-tree contributes no leaves, and a document with zero keys
loads with zero assignments and no error. -/
theorem c6_flattening_dotted_paths :
    (∀ (c : ConfigSet) (doc : List (String × TomlValue)) (path : List String),
      c.loadTomlTree doc path = loadLeaves c (leaves doc path)) ∧
    (∀ (ks : List String) (k : String) (sc : TomlScalar),
      leaves (nestedSingleton ks k sc) [] =
        [(String.intercalate "." (ks ++ [k]), sprintv sc)]) ∧
    (∀ (key : String) (rest : List (String × TomlValue)) (path : List String),
      leaves ((key, TomlValue.table []) :: rest) path = leaves rest path) ∧
    (∀ (c : ConfigSet) (path : List String), c.loadTomlTree [] path = (c, none)) := by
  refine ⟨loadTomlTree_eq_loadLeaves, ?_, ?_, ?_⟩
  · intro ks k sc
    have h := leaves_nestedSingleton ks k sc []
    simpa using h
  · intro key rest path
    simp [leaves]
  · intro c path
    simp [ConfigSet.loadTomlTree]

/-- C5: the error-handling policy chosen at construction plays no role
in document loading: for any Set and any policy, `Parse` and
`ParseString` produce the same outcome (same error, same registry state)
whatever the policy is, and that outcome is always a returned value —
never a process exit or panic (which only the argument-parsing path of
the underlying `flag.FlagSet.Parse` can produce under
`ExitOnError`/`PanicOnError`). -/
theorem c5_policy_independent_loading (c : ConfigSet) (eh : ErrorHandling)
    (readFile : Str → Except Str Str) (tomlLoad : Str → Except Unit (List (Str × TomlValue)))
    (path str : Str) :
    ((setPolicy c eh).Parse readFile tomlLoad path =
      (c.Parse readFile tomlLoad path).mapSet (fun x => setPolicy x eh)) ∧
    ((setPolicy c eh).ParseString tomlLoad str =
      (c.ParseString tomlLoad str).mapSet (fun x => setPolicy x eh)) ∧
    (c.Parse readFile tomlLoad path).terminates = false ∧
    (c.ParseString tomlLoad str).terminates = false := by
  refine ⟨?_, ?_, ?_, ?_⟩
  · unfold ConfigSet.Parse
    match hr : readFile path with
    | Except.error e => rfl
    | Except.ok contents =>
      dsimp only
      match ht : tomlLoad contents with
      | Except.error _ => rfl
      | Except.ok tree =>
        dsimp only
        rw [loadTomlTree_setPolicy]
        match hl : c.loadTomlTree tree [] with
        | (c1, none) => rfl
        | (c1, some e) => rfl
  · unfold ConfigSet.ParseString
    match ht : tomlLoad str with
    | Except.error _ => rfl
    | Except.ok tree =>
      dsimp only
      rw [loadTomlTree_setPolicy]
      match hl : c.loadTomlTree tree [] with
      | (c1, none) => rfl
      | (c1, some e) => rfl
  · unfold ConfigSet.Parse
    match hr : readFile path with
    | Except.error e => rfl
    | Except.ok contents =>
      dsimp only
      match ht : tomlLoad contents with
      | Except.error _ => rfl
      | Except.ok tree =>
        dsimp only
        match hl : c.loadTomlTree tree [] with
        | (c1, none) => rfl
        | (c1, some e) => rfl
  · unfold ConfigSet.ParseString
    match ht : tomlLoad str with
    | Except.error _ => rfl
    | Except.ok tree =>
      dsimp only
      match hl : c.loadTomlTree tree [] with
      | (c1, none) => rfl
      | (c1, some e) => rfl

/-- C7: when the TOML source does not parse (or, for `Parse`, the file
does not read), the load returns a single error carrying the Set
exactly as it was — no setting is mutated, no partial document is
applied. -/
theorem c7_parse_failure_no_mutation (c : ConfigSet)
    (readFile : Str → Except Str Str) (tomlLoad : Str → Except Unit (List (Str × TomlValue)))
    (path str : Str) :
    (tomlLoad str = Except.error () →
      ∃ msg, c.ParseString tomlLoad str = LoadOutcome.err c msg) ∧
    (∀ ioErr, readFile path = Except.error ioErr →
      c.Parse readFile tomlLoad path = LoadOutcome.err c ioErr) ∧
    (∀ contents, readFile path = Except.ok contents → tomlLoad contents = Except.error () →
      ∃ msg, c.Parse readFile tomlLoad path = LoadOutcome.err c msg) := by
  refine ⟨?_, ?_, ?_⟩
  · intro h
    refine ⟨"Not a valid TOML. See https://github.com/mojombo/toml", ?_⟩
    unfold ConfigSet.ParseString
    rw [h]
  · intro ioErr h
    unfold ConfigSet.Parse
    rw [h]
  · intro contents hr ht
    refine ⟨path ++ " is not a valid TOML file. See https://github.com/mojombo/toml", ?_⟩
    unfold ConfigSet.Parse
    rw [hr]
    dsimp only
    rw [ht]

/-- C7 witness: a Set with one declared flag, a failing reader and a
failing TOML parser: both entry points return `err` with the registry
untouched. -/
theorem c7_witness :
    (∃ msg, ((New "t" ErrorHandling.ContinueOnError).Int "n" 7).ParseString
        (fun _ => Except.error ()) "not toml" =
      LoadOutcome.err ((New "t" ErrorHandling.ContinueOnError).Int "n" 7) msg) ∧
    (((New "t" ErrorHandling.ContinueOnError).Int "n" 7).Parse
        (fun _ => Except.error "open /etc/app.conf: no such file or directory")
        (fun _ => Except.ok []) "/etc/app.conf" =
      LoadOutcome.err ((New "t" ErrorHandling.ContinueOnError).Int "n" 7)
        "open /etc/app.conf: no such file or directory") := by
  have h := c7_parse_failure_no_mutation ((New "t" ErrorHandling.ContinueOnError).Int "n" 7)
    (fun _ => Except.error "open /etc/app.conf: no such file or directory")
    (fun _ => Except.error ()) "/etc/app.conf" "not toml"
  have h2 := c7_parse_failure_no_mutation ((New "t" ErrorHandling.ContinueOnError).Int "n" 7)
    (fun _ => Except.error "open /etc/app.conf: no such file or directory")
    (fun _ => Except.ok []) "/etc/app.conf" "not toml"
  exact ⟨h.1 rfl, h2.2.1 "open /etc/app.conf: no such file or directory" rfl⟩

/-- C8: the exact failure messages of the loading entry points: `Parse`
propagates a read error verbatim (Go's I/O error text includes the
path); a TOML parse failure in `Parse` yields the single fixed message
naming the file path; `ParseString` yields the corresponding fixed
message without any path. -/
theorem c8_load_error_messages (c : ConfigSet)
    (readFile : Str → Except Str Str) (tomlLoad : Str → Except Unit (List (Str × TomlValue)))
    (path str : Str) :
    (∀ ioErr, readFile path = Except.error ioErr →
      c.Parse readFile tomlLoad path = LoadOutcome.err c ioErr) ∧
    (∀ contents, readFile path = Except.ok contents → tomlLoad contents = Except.error () →
      c.Parse readFile tomlLoad path = LoadOutcome.err c
        (path ++ " is not a valid TOML file. See https://github.com/mojombo/toml")) ∧
    (tomlLoad str = Except.error () →
      c.ParseString tomlLoad str = LoadOutcome.err c
        "Not a valid TOML. See https://github.com/mojombo/toml") := by
  refine ⟨?_, ?_, ?_⟩
  · intro ioErr h
    unfold ConfigSet.Parse
    rw [h]
  · intro contents hr ht
    unfold ConfigSet.Parse
    rw [hr]
    dsimp only
    rw [ht]
  · intro h
    unfold ConfigSet.ParseString
    rw [h]

/-- C8 witness: concrete failing reader and parser produce exactly the
three message shapes. -/
theorem c8_witness :
    ((New "t" ErrorHandling.ContinueOnError).Parse
        (fun _ => Except.error "open app.conf: permission denied")
        (fun _ => Except.ok []) "app.conf" =
      LoadOutcome.err (New "t" ErrorHandling.ContinueOnError)
        "open app.conf: permission denied") ∧
    ((New "t" ErrorHandling.ContinueOnError).Parse
        (fun _ => Except.ok "][") (fun _ => Except.error ()) "app.conf" =
      LoadOutcome.err (New "t" ErrorHandling.ContinueOnError)
        ("app.conf" ++ " is not a valid TOML file. See https://github.com/mojombo/toml")) ∧
    ((New "t" ErrorHandling.ContinueOnError).ParseString
        (fun _ => Except.error ()) "][" =
      LoadOutcome.err (New "t" ErrorHandling.ContinueOnError)
        "Not a valid TOML. See https://github.com/mojombo/toml") := by
  have h1 := c8_load_error_messages (New "t" ErrorHandling.ContinueOnError)
    (fun _ => Except.error "open app.conf: permission denied") (fun _ => Except.ok [])
    "app.conf" ""
  have h2 := c8_load_error_messages (New "t" ErrorHandling.ContinueOnError)
    (fun _ => Except.ok "][") (fun _ => Except.error ()) "app.conf" ""
  have h3 := c8_load_error_messages (New "t" ErrorHandling.ContinueOnError)
    (fun _ => Except.ok "") (fun _ => Except.error ()) "app.conf" "]["
  exact ⟨h1.1 "open app.conf: permission denied" rfl, h2.2.1 "][" rfl rfl, h3.2.2 rfl⟩

/-- C10: loading never creates or destroys settings: the registry's
names, defaults and usage strings are identical before and after any
`loadTomlTree`, `Parse` or `ParseString` call, successful or failed —
loading only assigns values to previously declared settings. -/
theorem c10_loading_never_declares (c : ConfigSet) (doc : List (String × TomlValue))
    (path : List String) (readFile : Str → Except Str Str)
    (tomlLoad : Str → Except Unit (List (Str × TomlValue))) (fpath str : Str) :
    declSig (c.loadTomlTree doc path).1 = declSig c ∧
    (∀ c1, (c.Parse readFile tomlLoad fpath).confSet = some c1 → declSig c1 = declSig c) ∧
    (∀ c1, (c.ParseString tomlLoad str).confSet = some c1 → declSig c1 = declSig c) := by
  have hbase : ∀ (d : List (String × TomlValue)) (p : List String),
      declSig (c.loadTomlTree d p).1 = declSig c := by
    intro d p
    rw [loadTomlTree_eq_loadLeaves]
    exact loadLeaves_declSig _ c
  refine ⟨hbase doc path, ?_, ?_⟩
  · intro c1 hc1
    unfold ConfigSet.Parse at hc1
    match hr : readFile fpath with
    | Except.error e =>
      rw [hr] at hc1
      dsimp only [LoadOutcome.confSet] at hc1
      cases hc1
      rfl
    | Except.ok contents =>
      rw [hr] at hc1
      dsimp only at hc1
      match ht : tomlLoad contents with
      | Except.error _ =>
        rw [ht] at hc1
        dsimp only [LoadOutcome.confSet] at hc1
        cases hc1
        rfl
      | Except.ok tree =>
        rw [ht] at hc1
        dsimp only at hc1
        have hb := hbase tree []
        match hl : c.loadTomlTree tree [] with
        | (c2, none) =>
          rw [hl] at hc1 hb
          dsimp only [LoadOutcome.confSet] at hc1
          cases hc1
          exact hb
        | (c2, some e) =>
          rw [hl] at hc1 hb
          dsimp only [LoadOutcome.confSet] at hc1
          cases hc1
          exact hb
  · intro c1 hc1
    unfold ConfigSet.ParseString at hc1
    match ht : tomlLoad str with
    | Except.error _ =>
      rw [ht] at hc1
      dsimp only [LoadOutcome.confSet] at hc1
      cases hc1
      rfl
    | Except.ok tree =>
      rw [ht] at hc1
      dsimp only at hc1
      have hb := hbase tree []
      match hl : c.loadTomlTree tree [] with
      | (c2, none) =>
        rw [hl] at hc1 hb
        dsimp only [LoadOutcome.confSet] at hc1
        cases hc1
        exact hb
      | (c2, some e) =>
        rw [hl] at hc1 hb
        dsimp only [LoadOutcome.confSet] at hc1
        cases hc1
        exact hb

/-- Evaluation helper: a successful TOML parse reduces `ParseString` to
sequential leaf processing (`loadTomlTree` is well-founded recursion and
does not reduce definitionally; `loadLeaves` does). -/
theorem ParseString_via_leaves (c : ConfigSet)
    (tomlLoad : Str → Except Unit (List (Str × TomlValue))) (str : Str)
    (doc : List (Str × TomlValue)) (h : tomlLoad str = Except.ok doc) :
    c.ParseString tomlLoad str =
      match loadLeaves c (leaves doc []) with
      | (c1, none) => LoadOutcome.ok c1
      | (c1, some e) => LoadOutcome.err c1 e := by
  unfold ConfigSet.ParseString
  rw [h]
  dsimp only
  rw [loadTomlTree_eq_loadLeaves]

/-- C10 witness: a failed load (unparsable int value) still preserves
the declared names, defaults and usage strings. -/
theorem c10_witness :
    declSig (ConfigSet.mk "t" ErrorHandling.ContinueOnError
      [("n", GoFlag.mk (GoValue.intV 0) (GoValue.intV 7) "")]) =
      declSig ((New "t" ErrorHandling.ContinueOnError).Int "n" 7) :=
  (c10_loading_never_declares ((New "t" ErrorHandling.ContinueOnError).Int "n" 7) [] []
    (fun _ => Except.ok "")
    (fun _ => Except.ok [("n", TomlValue.scalar (TomlScalar.sString "abc"))]) "" "doc").2.2
    (ConfigSet.mk "t" ErrorHandling.ContinueOnError
      [("n", GoFlag.mk (GoValue.intV 0) (GoValue.intV 7) "")])
    (by
      rw [ParseString_via_leaves _ _ _ _ rfl]
      simp only [leaves]
      decide)

/-- C9: after a successful second load, only the settings whose dotted
paths occur in the second document changed; every setting absent from
the second document keeps its value from the state after the first load
(it is not reset to its default). -/
theorem c9_second_load_frame (c c1 c2 : ConfigSet) (doc1 doc2 : List (String × TomlValue))
    (_h1 : c.loadTomlTree doc1 [] = (c1, none))
    (h2 : c1.loadTomlTree doc2 [] = (c2, none)) :
    ∀ m, m ∉ (leaves doc2 []).map Prod.fst → currentValue c2 m = currentValue c1 m := by
  intro m hm
  rw [loadTomlTree_eq_loadLeaves] at h2
  unfold currentValue
  rw [loadLeaves_lookup_not_mem (leaves doc2 []) c1 c2 none h2 m hm]

/-- C9 witness: `a` and `b` loaded from a first document; a second
document naming only `a` leaves `b` at its first-load value. -/
theorem c9_witness :
    currentValue (ConfigSet.mk "t" ErrorHandling.ContinueOnError
      [("a", GoFlag.mk (GoValue.stringV "A2") (GoValue.stringV "defA") ""),
       ("b", GoFlag.mk (GoValue.stringV "B1") (GoValue.stringV "defB") "")]) "b" =
    currentValue (ConfigSet.mk "t" ErrorHandling.ContinueOnError
      [("a", GoFlag.mk (GoValue.stringV "A1") (GoValue.stringV "defA") ""),
       ("b", GoFlag.mk (GoValue.stringV "B1") (GoValue.stringV "defB") "")]) "b" :=
  c9_second_load_frame
    (((New "t" ErrorHandling.ContinueOnError).String "a" "defA").String "b" "defB")
    (ConfigSet.mk "t" ErrorHandling.ContinueOnError
      [("a", GoFlag.mk (GoValue.stringV "A1") (GoValue.stringV "defA") ""),
       ("b", GoFlag.mk (GoValue.stringV "B1") (GoValue.stringV "defB") "")])
    (ConfigSet.mk "t" ErrorHandling.ContinueOnError
      [("a", GoFlag.mk (GoValue.stringV "A2") (GoValue.stringV "defA") ""),
       ("b", GoFlag.mk (GoValue.stringV "B1") (GoValue.stringV "defB") "")])
    [("a", TomlValue.scalar (TomlScalar.sString "A1")),
     ("b", TomlValue.scalar (TomlScalar.sString "B1"))]
    [("a", TomlValue.scalar (TomlScalar.sString "A2"))]
    (by
      rw [loadTomlTree_eq_loadLeaves]
      simp only [leaves]
      decide)
    (by
      rw [loadTomlTree_eq_loadLeaves]
      simp only [leaves]
      decide)
    "b"
    (by
      simp only [leaves]
      decide)

/-- C1 counterexample: the claim as stated promises success for every
document whose leaf keys all match declared paths, but a matching key
with a value that does not parse under the declared type (here the
string "abc" against an int setting) makes the load fail — and the
failed per-value write zeroes the setting. -/
theorem c1_counterexample :
    ((leaves [("n", TomlValue.scalar (TomlScalar.sString "abc"))] []).all
      (fun pv => (lookupFlag ((New "t" ErrorHandling.ContinueOnError).Int "n" 7).formal
        pv.1).isSome) = true) ∧
    ((New "t" ErrorHandling.ContinueOnError).Int "n" 7).ParseString
        (fun _ => Except.ok [("n", TomlValue.scalar (TomlScalar.sString "abc"))]) "n = abc" =
      LoadOutcome.err (ConfigSet.mk "t" ErrorHandling.ContinueOnError
        [("n", GoFlag.mk (GoValue.intV 0) (GoValue.intV 7) "")])
        "The value for n is invalid" := by
  constructor
  · simp only [leaves]
    decide
  · rw [ParseString_via_leaves _ _ _ _ rfl]
    simp only [leaves]
    decide

/-- C1 (amended): for every document whose leaf keys all match declared
paths, whose dotted leaf paths are distinct, and whose values all parse
under the corresponding declared types, a load via `Parse` or
`ParseString` succeeds, each setting named in the document ends at the
declared type's parse of the document's value for its dotted path, and
every other setting keeps its prior value unchanged. -/
theorem c1_successful_load_values (c : ConfigSet) (doc : List (String × TomlValue))
    (readFile : Str → Except Str Str) (tomlLoad : Str → Except Unit (List (Str × TomlValue)))
    (fpath contents str : Str)
    (hrf : readFile fpath = Except.ok contents)
    (hdoc1 : tomlLoad contents = Except.ok doc)
    (hdoc2 : tomlLoad str = Except.ok doc)
    (hnodup : ((leaves doc []).map Prod.fst).Nodup)
    (hok : ∀ pv ∈ leaves doc [], ∃ fl, lookupFlag c.formal pv.1 = some fl ∧
      (goSet fl.value pv.2).2 = none) :
    ∃ c1, c.Parse readFile tomlLoad fpath = LoadOutcome.ok c1 ∧
      c.ParseString tomlLoad str = LoadOutcome.ok c1 ∧
      (∀ pv ∈ leaves doc [], ∀ fl, lookupFlag c.formal pv.1 = some fl →
        currentValue c1 pv.1 = some (goSet fl.value pv.2).1) ∧
      (∀ m, m ∉ (leaves doc []).map Prod.fst → currentValue c1 m = currentValue c m) := by
  obtain ⟨c1, hload, hvals, hframe⟩ := loadLeaves_ok (leaves doc []) c hnodup hok
  refine ⟨c1, ?_, ?_, ?_, ?_⟩
  · unfold ConfigSet.Parse
    rw [hrf]
    dsimp only
    rw [hdoc1]
    dsimp only
    rw [loadTomlTree_eq_loadLeaves, hload]
  · rw [ParseString_via_leaves c tomlLoad str doc hdoc2, hload]
  · intro pv hpv fl hfl
    unfold currentValue
    rw [hvals pv hpv fl hfl]
    rfl
  · intro m hm
    unfold currentValue
    rw [hframe m hm]

/-- C1 witness: the README's `atlanta.population` example, one nested
table with an int leaf: both entry points succeed and the value lands
parsed. -/
theorem c1_witness :
    ∃ c1, ((New "t" ErrorHandling.ContinueOnError).Int "atlanta.population" 0).Parse
        (fun _ => Except.ok "contents")
        (fun _ => Except.ok [("atlanta", TomlValue.table
          [("population", TomlValue.scalar (TomlScalar.sInt 432427))])]) "f" =
      LoadOutcome.ok c1 ∧
    ((New "t" ErrorHandling.ContinueOnError).Int "atlanta.population" 0).ParseString
        (fun _ => Except.ok [("atlanta", TomlValue.table
          [("population", TomlValue.scalar (TomlScalar.sInt 432427))])]) "doc" =
      LoadOutcome.ok c1 ∧
    (∀ pv ∈ leaves [("atlanta", TomlValue.table
          [("population", TomlValue.scalar (TomlScalar.sInt 432427))])] [],
      ∀ fl, lookupFlag ((New "t" ErrorHandling.ContinueOnError).Int
          "atlanta.population" 0).formal pv.1 = some fl →
        currentValue c1 pv.1 = some (goSet fl.value pv.2).1) ∧
    (∀ m, m ∉ (leaves [("atlanta", TomlValue.table
          [("population", TomlValue.scalar (TomlScalar.sInt 432427))])] []).map Prod.fst →
      currentValue c1 m =
        currentValue ((New "t" ErrorHandling.ContinueOnError).Int "atlanta.population" 0) m) :=
  c1_successful_load_values
    ((New "t" ErrorHandling.ContinueOnError).Int "atlanta.population" 0)
    [("atlanta", TomlValue.table [("population", TomlValue.scalar (TomlScalar.sInt 432427))])]
    (fun _ => Except.ok "contents")
    (fun _ => Except.ok [("atlanta", TomlValue.table
      [("population", TomlValue.scalar (TomlScalar.sInt 432427))])])
    "f" "contents" "doc" rfl rfl rfl
    (by
      simp only [leaves]
      decide)
    (by
      intro pv hpv
      simp only [leaves, List.append_nil, List.nil_append] at hpv
      rw [List.mem_singleton] at hpv
      subst hpv
      exact ⟨GoFlag.mk (GoValue.intV 0) (GoValue.intV 0) "", by decide, by decide⟩)

/-- C2: during flattening the first failing `setFromString` aborts the
rest of the traversal; its raw error, rewritten by `buildLoadError`, is
what the load returns; the returned state is the one right after the
failing call, so settings assigned before the failing key keep their new
values — there is no rollback. -/
theorem c2_first_failure_aborts (c : ConfigSet) (doc : List (String × TomlValue))
    (tomlLoad : Str → Except Unit (List (Str × TomlValue))) (str : Str)
    (c1 : ConfigSet) (e : String)
    (hdoc : tomlLoad str = Except.ok doc)
    (h : c.loadTomlTree doc [] = (c1, some e)) :
    c.ParseString tomlLoad str = LoadOutcome.err c1 e ∧
    ∃ pre p v rest c2 raw,
      leaves doc [] = pre ++ (p, v) :: rest ∧
      loadLeaves c pre = (c2, none) ∧
      (c2.setFromString p v).2 = some raw ∧
      c1 = (c2.setFromString p v).1 ∧
      e = buildLoadError p raw := by
  constructor
  · rw [ParseString_via_leaves c tomlLoad str doc hdoc, ← loadTomlTree_eq_loadLeaves, h]
  · rw [loadTomlTree_eq_loadLeaves] at h
    exact loadLeaves_err (leaves doc []) c c1 e h

/-- C2 witness: `a` assigns, then the undeclared key `b` fails: the
error is the rewritten unknown-flag message and `a` keeps its new
value 1 in the returned state. -/
theorem c2_witness :
    (((New "t" ErrorHandling.ContinueOnError).Int "a" 0).ParseString
        (fun _ => Except.ok [("a", TomlValue.scalar (TomlScalar.sInt 1)),
          ("b", TomlValue.scalar (TomlScalar.sInt 2))]) "doc" =
      LoadOutcome.err (ConfigSet.mk "t" ErrorHandling.ContinueOnError
        [("a", GoFlag.mk (GoValue.intV 1) (GoValue.intV 0) "")])
        "b is not a valid config setting") ∧
    ∃ pre p v rest c2 raw,
      leaves [("a", TomlValue.scalar (TomlScalar.sInt 1)),
        ("b", TomlValue.scalar (TomlScalar.sInt 2))] [] = pre ++ (p, v) :: rest ∧
      loadLeaves ((New "t" ErrorHandling.ContinueOnError).Int "a" 0) pre = (c2, none) ∧
      (c2.setFromString p v).2 = some raw ∧
      ConfigSet.mk "t" ErrorHandling.ContinueOnError
        [("a", GoFlag.mk (GoValue.intV 1) (GoValue.intV 0) "")] = (c2.setFromString p v).1 ∧
      "b is not a valid config setting" = buildLoadError p raw :=
  c2_first_failure_aborts
    ((New "t" ErrorHandling.ContinueOnError).Int "a" 0)
    [("a", TomlValue.scalar (TomlScalar.sInt 1)), ("b", TomlValue.scalar (TomlScalar.sInt 2))]
    (fun _ => Except.ok [("a", TomlValue.scalar (TomlScalar.sInt 1)),
      ("b", TomlValue.scalar (TomlScalar.sInt 2))])
    "doc"
    (ConfigSet.mk "t" ErrorHandling.ContinueOnError
      [("a", GoFlag.mk (GoValue.intV 1) (GoValue.intV 0) "")])
    "b is not a valid config setting"
    rfl
    (by
      rw [loadTomlTree_eq_loadLeaves]
      simp only [leaves]
      decide)

/-- C3 counterexample: the error text `parsing "5": invalid syntax`
ends in the invalid-syntax shape (the literal tail of the pattern is a
suffix of it), yet `buildLoadError` returns it unmodified rather than
"The value for x is invalid": the regexp demands at least one character
followed by a space before `parsing`. -/
theorem c3_counterexample :
    invalidSuffixPat.isSuffixOf ("parsing \"5\": invalid syntax").data = true ∧
    buildLoadError "x" "parsing \"5\": invalid syntax" = "parsing \"5\": invalid syntax" ∧
    buildLoadError "x" "parsing \"5\": invalid syntax" ≠ "The value for x is invalid" := by
  refine ⟨by decide, by decide, by decide⟩

/-- C3 (amended): `buildLoadError` maps `no such flag -<name>` to
`<name> is not a valid config setting` for every nonempty whitespace-free
name; maps every error of the full shape
`<head> parsing "<value>": invalid syntax` — with `<head>` and `<value>`
nonempty and newline-free and the text not also matching the
unknown-flag prefix — to `The value for <path> is invalid`; and returns
every error text matching neither pattern unmodified. -/
theorem c3_error_translation :
    (∀ (path nm : Str), nm.data ≠ [] → (∀ a ∈ nm.data, goIsSpace a = false) →
      buildLoadError path ("no such flag -" ++ nm) = nm ++ " is not a valid config setting") ∧
    (∀ (path pre v : Str), pre.data ≠ [] → v.data ≠ [] →
      (∀ a ∈ pre.data, a ≠ '\n') → (∀ a ∈ v.data, a ≠ '\n') →
      missingFlagMatch (pre ++ " parsing \"" ++ v ++ "\": invalid syntax").data = false →
      buildLoadError path (pre ++ " parsing \"" ++ v ++ "\": invalid syntax") =
        "The value for " ++ path ++ " is invalid") ∧
    (∀ (path e : Str), missingFlagMatch e.data = false → invalidSyntaxMatch e.data = false →
      buildLoadError path e = e) := by
  refine ⟨?_, ?_, ?_⟩
  · intro path nm hne hns
    apply String.ext
    show buildLoadErrorCore path.data ("no such flag -" ++ nm).data =
      (nm ++ " is not a valid config setting").data
    rw [String.data_append, String.data_append]
    exact buildLoadErrorCore_missing path.data nm.data hne
      (fun a ha => by simp [hns a ha])
  · intro path pre v hpre hv hpn hvn hnf
    have hd : (pre ++ " parsing \"" ++ v ++ "\": invalid syntax").data =
        pre.data ++ parsingPat ++ v.data ++ invalidSuffixPat := by
      rw [String.data_append, String.data_append, String.data_append]
      rfl
    apply String.ext
    show buildLoadErrorCore path.data (pre ++ " parsing \"" ++ v ++ "\": invalid syntax").data =
      ("The value for " ++ path ++ " is invalid").data
    rw [hd] at hnf ⊢
    rw [String.data_append, String.data_append]
    exact buildLoadErrorCore_invalid path.data pre.data v.data hpre hv hpn hvn hnf
  · intro path e h1 h2
    apply String.ext
    show buildLoadErrorCore path.data e.data = e.data
    exact buildLoadErrorCore_passthrough path.data e.data h1 h2

/-- C3 witness: the three branches at concrete inputs: an unknown-flag
error, a strconv invalid-syntax error, and a duration error that passes
through. -/
theorem c3_witness :
    buildLoadError "p" ("no such flag -" ++ "country") =
      "country" ++ " is not a valid config setting" ∧
    buildLoadError "atlanta.population"
        ("strconv.ParseInt:" ++ " parsing \"" ++ "abc" ++ "\": invalid syntax") =
      "The value for " ++ "atlanta.population" ++ " is invalid" ∧
    buildLoadError "p" "time: invalid duration xyz" = "time: invalid duration xyz" :=
  ⟨c3_error_translation.1 "p" "country" (by decide) (by decide),
   c3_error_translation.2.1 "atlanta.population" "strconv.ParseInt:" "abc" (by decide)
     (by decide) (by decide) (by decide) (by decide),
   c3_error_translation.2.2 "p" "time: invalid duration xyz" (by decide) (by decide)⟩

/-- C4 (code bug, evaluated): every declarator except `Duration`
registers on the receiver Set — a freshly declared `Int` flag is
immediately settable on the same Set — but `Set.Duration` registers on
the package-global Set (`globalConfig`, an identifier this fork does not
even define; every other declarator uses `c.FlagSet`): after
`c.Duration("timeout", 5s)` the receiver cannot resolve `timeout`
(`no such flag -timeout`) while the global Set now holds it. -/
theorem c4_duration_registers_on_global :
    ((((New "network" ErrorHandling.ContinueOnError).Int "port" 8080)).setFromString
      "port" "9090").2 = none ∧
    ((ConfigSet.Duration (New "global" ErrorHandling.ExitOnError)
        ((New "network" ErrorHandling.ContinueOnError).Int "port" 8080)
        "timeout" 5000000000).2.setFromString "timeout" "10s").2 =
      some "no such flag -timeout" ∧
    lookupFlag (ConfigSet.Duration (New "global" ErrorHandling.ExitOnError)
        ((New "network" ErrorHandling.ContinueOnError).Int "port" 8080)
        "timeout" 5000000000).1.formal "timeout" =
      some (GoFlag.mk (GoValue.durationV 5000000000) (GoValue.durationV 5000000000) "") ∧
    lookupFlag (ConfigSet.Duration (New "global" ErrorHandling.ExitOnError)
        ((New "network" ErrorHandling.ContinueOnError).Int "port" 8080)
        "timeout" 5000000000).2.formal "timeout" = none := by
  refine ⟨by decide, by decide, by decide, by decide⟩
